import Mathlib

/-!
Shallow embedding of the Tetris game-state core of `shreyamain.py`
(`TetrisGameMerged`): grid, tetromino pieces, collision checking,
locking, line clearing, spawning, movement and input handling.
Grid cells are natural numbers (`0` = empty, nonzero = locked color id);
coordinates are integers because a falling piece's anchor `y` may be
negative while it enters from above the visible field.
-/

namespace Tetris

def GRID_WIDTH : Nat := 10

def GRID_HEIGHT : Nat := 20

def BLOCKS_PER_STAGE : Nat := 5

def MAX_STAGE : Nat := 3

/-- The 7 canonical tetromino shape templates (`SHAPES` in the source). -/
def SHAPES : List (List (List Nat)) :=
  [ [[1, 1, 1, 1]],
    [[1, 0, 0], [1, 1, 1]],
    [[0, 0, 1], [1, 1, 1]],
    [[1, 1], [1, 1]],
    [[0, 1, 1], [1, 1, 0]],
    [[0, 1, 0], [1, 1, 1]],
    [[1, 1, 0], [0, 1, 1]] ]

/-- The `Tetromino` dataclass: shape matrix, color, integer anchor position. -/
structure Tetromino where
  shape : List (List Nat)
  color : Nat
  x : Int
  y : Int
deriving DecidableEq, Repr

abbrev Grid := List (List Nat)

def emptyRow : List Nat := List.replicate GRID_WIDTH 0

def emptyGrid : Grid := List.replicate GRID_HEIGHT emptyRow

/-- Read `grid[y][x]` (in-range in every access the source performs). -/
def gridGet (g : Grid) (y x : Nat) : Nat := (g.getD y []).getD x 0

/-- Write `grid[y][x] = v`. -/
def gridSet (g : Grid) (y x v : Nat) : Grid := g.set y ((g.getD y []).set x v)

/-- Embeds `enumerate(row)` restricted to occupied entries: the pairs
`(y_offset, x_offset)` contributed by one shape row, in iteration order. -/
def rowOccFrom (yo : Nat) : Nat → List Nat → List (Nat × Nat)
  | _, [] => []
  | xo, v :: vs => (if v ≠ 0 then [(yo, xo)] else []) ++ rowOccFrom yo (xo + 1) vs

/-- All occupied cells of a shape matrix as `(y_offset, x_offset)` pairs,
in the source's double-loop iteration order (row major, top row first). -/
def occCellsFrom : Nat → List (List Nat) → List (Nat × Nat)
  | _, [] => []
  | yo, row :: rest => rowOccFrom yo 0 row ++ occCellsFrom (yo + 1) rest

def occCells (shape : List (List Nat)) : List (Nat × Nat) := occCellsFrom 0 shape

/-- Body of the `_is_valid_position` loop for a single occupied cell, with
`x = piece.x + x_offset + dx` and `y = piece.y + y_offset + dy` inlined. -/
def cellOk (g : Grid) (px py dx dy : Int) (c : Nat × Nat) : Bool :=
  if px + c.2 + dx < 0 ∨ (GRID_WIDTH : Int) ≤ px + c.2 + dx ∨
      (GRID_HEIGHT : Int) ≤ py + c.1 + dy then false
  else if 0 ≤ py + c.1 + dy ∧
      gridGet g (py + c.1 + dy).toNat (px + c.2 + dx).toNat ≠ 0 then false
  else true

/-- Embeds `TetrisGameMerged._is_valid_position` with an explicit shape argument
(the source's optional `shape` override). -/
def is_valid_position (g : Grid) (p : Tetromino) (dx dy : Int)
    (shape : List (List Nat)) : Bool :=
  (occCells shape).all (cellOk g p.x p.y dx dy)

/-- Embeds `_is_valid_position` with the default shape (the piece's own). -/
def validPos (g : Grid) (p : Tetromino) (dx dy : Int) : Bool :=
  is_valid_position g p dx dy p.shape

/-- One test of the `_clear_lines` loop: is row `y` of the grid full? -/
def rowFullAt (g : Grid) (y : Nat) : Bool :=
  (List.range GRID_WIDTH).all (fun x => gridGet g y x != 0)

/-- The `for y in range(GRID_HEIGHT - 1, -1, -1)` loop of `_clear_lines`,
faithfully re-testing each index against the grid as already mutated by
earlier deletions (`del self.grid[y]; self.grid.insert(0, empty)`). -/
def clearLoop : List Nat → Grid → Grid × Nat
  | [], g => (g, 0)
  | y :: ys, g =>
    if rowFullAt g y then
      let res := clearLoop ys (emptyRow :: g.eraseIdx y)
      (res.1, res.2 + 1)
    else clearLoop ys g

/-- Embeds `TetrisGameMerged._clear_lines`, grid part: returns the mutated grid
and the number of rows the loop removed. -/
def clear_lines (g : Grid) : Grid × Nat :=
  clearLoop (List.range GRID_HEIGHT).reverse g

/-- The shape transform of `_rotate_current`: `zip(*shape[::-1])`, i.e. the
transpose of the row-reversed matrix (clockwise 90° rotation). -/
def rotate_shape (shape : List (List Nat)) : List (List Nat) :=
  shape.reverse.transpose

/-- The `GameStateData` fields plus the grid, current piece and preview queue that
`TetrisGameMerged` keeps alongside it. -/
structure GameState where
  grid : Grid
  current : Option Tetromino
  nextPieces : List Tetromino
  score : Nat
  lines : Nat
  blocks_placed : Nat
  game_over : Bool
deriving DecidableEq, Repr

/-- Embeds `TetrisGameMerged.stage`. -/
def stage (s : GameState) : Nat :=
  min MAX_STAGE (s.blocks_placed / BLOCKS_PER_STAGE)

/-- Embeds `_new_piece` with the random shape/color draws made explicit inputs. -/
def new_piece (shape : List (List Nat)) (color : Nat) : Tetromino :=
  { shape := shape, color := color,
    x := (GRID_WIDTH : Int) / 2 - 1, y := -(shape.length : Int) }

/-- Embeds `spawn_piece`, with the freshly generated piece passed in explicitly
(the source draws it randomly); `none` models the `IndexError` a
`pop(0)` on an empty queue would raise. -/
def spawn_piece (fresh : Tetromino) (s : GameState) : Option GameState :=
  if s.game_over then some s
  else
    match s.nextPieces with
    | [] => none
    | q :: rest =>
      if is_valid_position s.grid q 0 0 q.shape then
        some { s with current := some q, nextPieces := rest ++ [fresh] }
      else
        some { s with current := some q, nextPieces := rest ++ [fresh],
                      game_over := true }

/-- The grid-writing loop of `_lock_piece`: writes each occupied cell in
iteration order, stopping with a game-over signal (and keeping the
writes already made) at the first cell with `y < 0`. -/
def writeCells : List (Nat × Nat) → Grid → Tetromino → Grid × Bool
  | [], g, _ => (g, false)
  | c :: rest, g, p =>
    if p.y + (c.1 : Int) < 0 then (g, true)
    else writeCells rest
      (gridSet g (p.y + (c.1 : Int)).toNat (p.x + (c.2 : Int)).toNat p.color) p

/-- Embeds `_clear_lines` as a state update: mutate the grid and, when at least
one row was removed, credit lines and score (`lines * 100`). -/
def clear_lines_state (s : GameState) : GameState :=
  if (clear_lines s.grid).2 > 0 then
    { s with grid := (clear_lines s.grid).1,
             lines := s.lines + (clear_lines s.grid).2,
             score := s.score + (clear_lines s.grid).2 * 100 }
  else { s with grid := (clear_lines s.grid).1 }

/-- Embeds `TetrisGameMerged._lock_piece`: write the piece into the grid (game
over at the first above-field cell), then increment blocks-placed, then
`spawn_piece()`, then `_clear_lines()` — in the source's order. -/
def lock_piece (fresh : Tetromino) (s : GameState) : Option GameState :=
  match s.current with
  | none => some s
  | some p =>
    match writeCells (occCells p.shape) s.grid p with
    | (g1, true) => some { s with grid := g1, game_over := true }
    | (g1, false) =>
      (spawn_piece fresh
        { s with grid := g1, blocks_placed := s.blocks_placed + 1 }).map
        clear_lines_state

/-- Modelled from the spec: the Locking/LineClearing/Spawning order the
spec prescribes — write the piece, increment blocks-placed, clear full
rows, and only then spawn the next piece (so the spawn-time collision
check sees the post-clear grid). For comparison with `lock_piece`. -/
def lock_piece_spec_order (fresh : Tetromino) (s : GameState) : Option GameState :=
  match s.current with
  | none => some s
  | some p =>
    match writeCells (occCells p.shape) s.grid p with
    | (g1, true) => some { s with grid := g1, game_over := true }
    | (g1, false) =>
      spawn_piece fresh (clear_lines_state
        { s with grid := g1, blocks_placed := s.blocks_placed + 1 })

/-- Embeds `TetrisGameMerged._move`: horizontal move if requested and valid,
then vertical move if requested — descending one cell when valid and
locking the piece in place otherwise. -/
def move (fresh : Tetromino) (dx dy : Int) (s : GameState) : Option GameState :=
  match s.current with
  | none => some s
  | some p =>
    let p1 := if dx ≠ 0 ∧ validPos s.grid p dx 0 = true then { p with x := p.x + dx } else p
    let s1 := { s with current := some p1 }
    if dy ≠ 0 then
      if validPos s1.grid p1 0 dy then
        some { s1 with current := some { p1 with y := p1.y + dy } }
      else lock_piece fresh s1
    else some s1

/-- The `while self._is_valid_position(piece, dy=1)` descent loop of
`_hard_drop`, fueled; `none` means the fuel ran out mid-descent. -/
def descend : Nat → Grid → Tetromino → Option Tetromino
  | 0, g, p => if validPos g p 0 1 then none else some p
  | n + 1, g, p =>
    if validPos g p 0 1 then descend n g { p with y := p.y + 1 } else some p

/-- Embeds `TetrisGameMerged._hard_drop`: descend while possible, then lock. -/
def hard_drop (fuel : Nat) (fresh : Tetromino) (s : GameState) : Option GameState :=
  match s.current with
  | none => some s
  | some p =>
    match descend fuel s.grid p with
    | none => none
    | some p1 => lock_piece fresh { s with current := some p1 }

/-- Repeatedly issue the soft-drop command `_move(0, 1)` until the call
that locks the piece (the call made when `canPlace(dy=1)` fails);
`none` when the fuel runs out before the piece locks. -/
def softDropUntilLock : Nat → Tetromino → GameState → Option GameState
  | 0, _, _ => none
  | n + 1, fresh, s =>
    match s.current with
    | none => none
    | some p =>
      if validPos s.grid p 0 1 then
        match move fresh 0 1 s with
        | none => none
        | some s1 => softDropUntilLock n fresh s1
      else move fresh 0 1 s

/-- Embeds `TetrisGameMerged._rotate_current`: rotate the shape and commit only
if the rotated shape is a valid position. -/
def rotate_current (s : GameState) : GameState :=
  match s.current with
  | none => s
  | some p =>
    let rotated := rotate_shape p.shape
    if is_valid_position s.grid p 0 0 rotated then
      { s with current := some { p with shape := rotated } }
    else s

/-- Embeds `TetrisGameMerged.reset_game`, game-state part: fresh empty grid,
zeroed counters, a preview queue of `MAX_STAGE + 1` new pieces, then an
immediate spawn (which consumes one more new piece). -/
def reset_game (p1 p2 p3 p4 fresh : Tetromino) : Option GameState :=
  spawn_piece fresh
    { grid := emptyGrid, current := none, nextPieces := [p1, p2, p3, p4],
      score := 0, lines := 0, blocks_placed := 0, game_over := false }

/-- The keyboard commands `handle_keydown` dispatches on. -/
inductive Key where
  | left
  | right
  | down
  | up
  | space
  | r
deriving DecidableEq, Repr

/-- Embeds `TetrisGameMerged.handle_keydown`: note that only the restart key
checks the game-over flag. -/
def handle_keydown (key : Key) (fuel : Nat) (fresh q1 q2 q3 q4 q5 : Tetromino)
    (s : GameState) : Option GameState :=
  match key with
  | .left => move fresh (-1) 0 s
  | .right => move fresh 1 0 s
  | .down => move fresh 0 1 s
  | .up => some (rotate_current s)
  | .space => hard_drop fuel fresh s
  | .r => if s.game_over then reset_game q1 q2 q3 q4 q5 else some s

/-! ## Theorems -/

def fullTestRow : List Nat := List.replicate GRID_WIDTH 1

/-- A grid whose two bottom rows are completely occupied. -/
def adjacentFullGrid : Grid :=
  List.replicate 18 emptyRow ++ [fullTestRow, fullTestRow]

/-- C1: the line-clearing loop of `_clear_lines`, run on a grid whose two
bottom rows are both 100% occupied before the call, removes only one of
them and credits only one row: after deleting row 19 the old row 18
shifts into the already-visited index 19 and is skipped, so a row that
was full before the call survives the call at the bottom of the grid. -/
theorem clear_lines_skips_adjacent_full_row :
    rowFullAt adjacentFullGrid 18 = true ∧
    rowFullAt adjacentFullGrid 19 = true ∧
    (clear_lines adjacentFullGrid).2 = 1 ∧
    (clear_lines adjacentFullGrid).1 = List.replicate 19 emptyRow ++ [fullTestRow] := by
  decide

lemma cellOk_eq_false_iff (g : Grid) (px py dx dy : Int) (c : Nat × Nat) :
    cellOk g px py dx dy c = false ↔
      (px + c.2 + dx < 0 ∨ (GRID_WIDTH : Int) ≤ px + c.2 + dx ∨
       (GRID_HEIGHT : Int) ≤ py + c.1 + dy ∨
       (0 ≤ py + c.1 + dy ∧
        gridGet g (py + c.1 + dy).toNat (px + c.2 + dx).toNat ≠ 0)) := by
  unfold cellOk
  split
  next h =>
    simp only [eq_self_iff_true, true_iff]
    tauto
  next h =>
    split
    next h2 =>
      simp only [eq_self_iff_true, true_iff]
      tauto
    next h2 =>
      simp only [Bool.true_eq_false, false_iff]
      tauto

/-- C2: the collision check `_is_valid_position` returns `False` if and
only if some occupied cell of the (possibly overridden) shape, offset by
`(dx, dy)` from the piece's anchor, leaves `[0, cols)` horizontally,
reaches `y ≥ rows`, or sits at `y ≥ 0` on a non-empty grid cell; an
occupied cell with `y < 0` that stays within horizontal bounds never
causes rejection. -/
theorem is_valid_position_false_iff (g : Grid) (p : Tetromino) (dx dy : Int)
    (shape : List (List Nat)) :
    is_valid_position g p dx dy shape = false ↔
      ∃ c ∈ occCells shape,
        (p.x + (c.2 : Int) + dx < 0 ∨ (GRID_WIDTH : Int) ≤ p.x + c.2 + dx ∨
         (GRID_HEIGHT : Int) ≤ p.y + c.1 + dy ∨
         (0 ≤ p.y + c.1 + dy ∧
          gridGet g (p.y + c.1 + dy).toNat (p.x + c.2 + dx).toNat ≠ 0)) := by
  unfold is_valid_position
  simp only [List.all_eq_false, Bool.not_eq_true, cellOk_eq_false_iff]

lemma rotate_shape_four_on_shapes : ∀ sh ∈ SHAPES, rotate_shape^[4] sh = sh := by
  decide

/-- C5: applying the clockwise rotation of `_rotate_current` (transpose
of the row-reversed shape matrix) four times returns any canonical
tetromino shape — and any rotation of one — to its original value. -/
theorem rotate_four_returns_original (sh : List (List Nat)) (hsh : sh ∈ SHAPES)
    (k : Nat) :
    rotate_shape^[4] (rotate_shape^[k] sh) = rotate_shape^[k] sh := by
  have h4 : rotate_shape^[4] sh = sh := rotate_shape_four_on_shapes sh hsh
  calc rotate_shape^[4] (rotate_shape^[k] sh)
      = rotate_shape^[4 + k] sh := (Function.iterate_add_apply _ 4 k sh).symm
    _ = rotate_shape^[k + 4] sh := by rw [Nat.add_comm]
    _ = rotate_shape^[k] (rotate_shape^[4] sh) := Function.iterate_add_apply _ k 4 sh
    _ = rotate_shape^[k] sh := by rw [h4]

/-- Witness for C5 at the T piece rotated once. -/
theorem rotate_four_returns_original_witness :
    [[0, 1, 0], [1, 1, 1]] ∈ SHAPES ∧
    rotate_shape^[4] (rotate_shape^[1] [[0, 1, 0], [1, 1, 1]]) =
      rotate_shape^[1] [[0, 1, 0], [1, 1, 1]] :=
  ⟨by decide, rotate_four_returns_original [[0, 1, 0], [1, 1, 1]] (by decide) 1⟩

/-- C8: the derived `stage` equals `min(MAX_STAGE, blocks_placed // BLOCKS_PER_STAGE)`,
is monotone in blocks-placed, and never exceeds `MAX_STAGE`. -/
theorem stage_min_formula_monotone_bounded :
    (∀ s : GameState, stage s = min MAX_STAGE (s.blocks_placed / BLOCKS_PER_STAGE)) ∧
    (∀ s t : GameState, s.blocks_placed ≤ t.blocks_placed → stage s ≤ stage t) ∧
    (∀ s : GameState, stage s ≤ MAX_STAGE) := by
  refine ⟨fun s => rfl, fun s t h => ?_, fun s => min_le_left _ _⟩
  exact min_le_min (le_refl _) (Nat.div_le_div_right h)

def stageStateA : GameState :=
  { grid := emptyGrid, current := none, nextPieces := [], score := 0,
    lines := 0, blocks_placed := 7, game_over := false }

def stageStateB : GameState := { stageStateA with blocks_placed := 23 }

/-- Witness for C8 at blocks-placed counts 7 and 23. -/
theorem stage_min_formula_witness :
    stageStateA.blocks_placed ≤ stageStateB.blocks_placed ∧
    stage stageStateA ≤ stage stageStateB :=
  ⟨by decide,
   stage_min_formula_monotone_bounded.2.1 stageStateA stageStateB (by decide)⟩

/-- C3: with no intervening input, a hard drop (`_hard_drop`) produces
exactly the state that repeatedly issuing the soft-drop command
`_move(0, 1)` until the piece locks produces — in particular the same
resulting locked grid. -/
theorem hard_drop_eq_repeated_soft_drop (fuel : Nat) (fresh : Tetromino)
    (s out : GameState) (h : softDropUntilLock fuel fresh s = some out) :
    hard_drop fuel fresh s = some out := by
  induction fuel generalizing s with
  | zero => simp [softDropUntilLock] at h
  | succ n ih =>
    obtain ⟨g, cur, np, sc, ln, bp, go⟩ := s
    cases cur with
    | none => simp [softDropUntilLock] at h
    | some p =>
      by_cases hv : validPos g p 0 1 = true
      · have hmv : move fresh 0 1 ⟨g, some p, np, sc, ln, bp, go⟩ =
            some ⟨g, some { p with y := p.y + 1 }, np, sc, ln, bp, go⟩ := by
          simp [move, hv]
        simp only [softDropUntilLock, hv, if_true, hmv] at h
        have hrec := ih _ h
        simp only [hard_drop, descend, hv, if_true] at hrec ⊢
        exact hrec
      · rw [Bool.not_eq_true] at hv
        simp only [softDropUntilLock, hv, Bool.false_eq_true, if_false, move] at h
        simp only [hard_drop, descend, hv, Bool.false_eq_true, if_false]
        simpa [hv] using h

def softDropFresh : Tetromino := new_piece [[1, 1, 1, 1]] 5

def softDropStart : GameState :=
  { grid := emptyGrid,
    current := some { shape := [[1, 1], [1, 1]], color := 2, x := 4, y := 17 },
    nextPieces := [new_piece [[1, 1, 1, 1]] 1, new_piece [[1, 1], [1, 1]] 2,
                   new_piece [[0, 1, 0], [1, 1, 1]] 3,
                   new_piece [[1, 0, 0], [1, 1, 1]] 4],
    score := 0, lines := 0, blocks_placed := 0, game_over := false }

def softDropOut : GameState :=
  { grid := List.replicate 18 emptyRow ++
      [[0, 0, 0, 0, 2, 2, 0, 0, 0, 0], [0, 0, 0, 0, 2, 2, 0, 0, 0, 0]],
    current := some (new_piece [[1, 1, 1, 1]] 1),
    nextPieces := [new_piece [[1, 1], [1, 1]] 2,
                   new_piece [[0, 1, 0], [1, 1, 1]] 3,
                   new_piece [[1, 0, 0], [1, 1, 1]] 4, softDropFresh],
    score := 0, lines := 0, blocks_placed := 1, game_over := false }

/-- Witness for C3: an O piece two cells above the floor of an empty
grid locks to the same state by hard drop and by repeated soft drops. -/
theorem hard_drop_eq_repeated_soft_drop_witness :
    softDropUntilLock 5 softDropFresh softDropStart = some softDropOut ∧
    hard_drop 5 softDropFresh softDropStart = some softDropOut :=
  ⟨by decide,
   hard_drop_eq_repeated_soft_drop 5 softDropFresh softDropStart softDropOut
     (by decide)⟩

lemma clear_lines_state_grid (s : GameState) :
    (clear_lines_state s).grid = (clear_lines s.grid).1 := by
  unfold clear_lines_state
  split <;> rfl

lemma clear_lines_state_current (s : GameState) :
    (clear_lines_state s).current = s.current := by
  unfold clear_lines_state
  split <;> rfl

lemma clear_lines_state_queue (s : GameState) :
    (clear_lines_state s).nextPieces = s.nextPieces := by
  unfold clear_lines_state
  split <;> rfl

lemma clear_lines_state_blocks (s : GameState) :
    (clear_lines_state s).blocks_placed = s.blocks_placed := by
  unfold clear_lines_state
  split <;> rfl

lemma clear_lines_state_gameover (s : GameState) :
    (clear_lines_state s).game_over = s.game_over := by
  unfold clear_lines_state
  split <;> rfl

def lockOrderPiece : Tetromino := { shape := [[1, 1, 1, 1]], color := 2, x := 6, y := 19 }

def lockOrderGrid : Grid :=
  List.replicate 19 emptyRow ++ [[1, 1, 1, 1, 1, 1, 0, 0, 0, 0]]

def lockOrderQueueHead : Tetromino := { shape := [[1, 1, 1, 1]], color := 3, x := 0, y := 19 }

def lockOrderStart : GameState :=
  { grid := lockOrderGrid, current := some lockOrderPiece,
    nextPieces := [lockOrderQueueHead, new_piece [[1, 1], [1, 1]] 4,
                   new_piece [[1, 1], [1, 1]] 5, new_piece [[1, 1], [1, 1]] 6],
    score := 0, lines := 0, blocks_placed := 0, game_over := false }

def lockOrderFresh : Tetromino := new_piece [[0, 1, 0], [1, 1, 1]] 7

/-- C4 counterexample: locking an I piece that completes the bottom row
while the queue head would overlap that row makes `lock_piece` report
game over — the spawn-time collision check ran against the pre-clear
grid — whereas the spec-prescribed order (clear, then spawn) accepts the
spawn; the two orders produce different states. -/
theorem lock_spawn_order_counterexample :
    (lock_piece lockOrderFresh lockOrderStart).map GameState.game_over =
      some true ∧
    (lock_piece_spec_order lockOrderFresh lockOrderStart).map
      GameState.game_over = some false ∧
    lock_piece lockOrderFresh lockOrderStart ≠
      lock_piece_spec_order lockOrderFresh lockOrderStart := by
  decide

/-- C4 (amended): when a lock writes every cell at `y ≥ 0`, `_lock_piece`
writes the piece, increments blocks-placed, spawns the next piece, and
only then clears lines — so the spawn-time collision check is evaluated
against the post-write, *pre-clear* grid `g1`, while the resulting grid
is `g1` with its full rows processed afterwards. -/
theorem lock_spawns_before_clearing (fresh : Tetromino) (s : GameState)
    (p q : Tetromino) (g1 : Grid) (rest : List Tetromino) (s1 : GameState)
    (hcur : s.current = some p) (hgo : s.game_over = false)
    (hq : s.nextPieces = q :: rest)
    (hw : writeCells (occCells p.shape) s.grid p = (g1, false))
    (hl : lock_piece fresh s = some s1) :
    s1.blocks_placed = s.blocks_placed + 1 ∧
    s1.current = some q ∧
    s1.nextPieces = rest ++ [fresh] ∧
    s1.game_over = !(is_valid_position g1 q 0 0 q.shape) ∧
    s1.grid = (clear_lines g1).1 := by
  obtain ⟨g, cur, np, sc, ln, bp, go⟩ := s
  simp only at hcur hgo hq hw
  subst hcur hgo hq
  simp only [lock_piece, hw] at hl
  by_cases hv : is_valid_position g1 q 0 0 q.shape = true
  · simp only [spawn_piece, hv, if_true, Bool.false_eq_true, if_false,
      Option.map_some', Option.some.injEq] at hl
    subst hl
    simp [clear_lines_state_grid, clear_lines_state_current,
      clear_lines_state_queue, clear_lines_state_blocks,
      clear_lines_state_gameover, hv]
  · rw [Bool.not_eq_true] at hv
    simp only [spawn_piece, hv, Bool.false_eq_true, if_false,
      Option.map_some', Option.some.injEq] at hl
    subst hl
    simp [clear_lines_state_grid, clear_lines_state_current,
      clear_lines_state_queue, clear_lines_state_blocks,
      clear_lines_state_gameover, hv]

def lockOrdWPiece : Tetromino := { shape := [[1, 1], [1, 1]], color := 2, x := 4, y := 18 }

def lockOrdWFresh : Tetromino := new_piece [[1, 1, 1, 1]] 9

def lockOrdWStart : GameState :=
  { grid := emptyGrid, current := some lockOrdWPiece,
    nextPieces := [new_piece [[1, 1, 1, 1]] 1, new_piece [[1, 1], [1, 1]] 3,
                   new_piece [[1, 1], [1, 1]] 4, new_piece [[1, 1], [1, 1]] 5],
    score := 0, lines := 0, blocks_placed := 0, game_over := false }

def lockOrdWG1 : Grid :=
  List.replicate 18 emptyRow ++
    [[0, 0, 0, 0, 2, 2, 0, 0, 0, 0], [0, 0, 0, 0, 2, 2, 0, 0, 0, 0]]

def lockOrdWOut : GameState :=
  { grid := lockOrdWG1, current := some (new_piece [[1, 1, 1, 1]] 1),
    nextPieces := [new_piece [[1, 1], [1, 1]] 3, new_piece [[1, 1], [1, 1]] 4,
                   new_piece [[1, 1], [1, 1]] 5, lockOrdWFresh],
    score := 0, lines := 0, blocks_placed := 1, game_over := false }

/-- Witness for the amended C4 at a plain floor lock of an O piece. -/
theorem lock_spawns_before_clearing_witness :
    writeCells (occCells lockOrdWPiece.shape) lockOrdWStart.grid lockOrdWPiece =
      (lockOrdWG1, false) ∧
    lock_piece lockOrdWFresh lockOrdWStart = some lockOrdWOut ∧
    (lockOrdWOut.blocks_placed = lockOrdWStart.blocks_placed + 1 ∧
     lockOrdWOut.current = some (new_piece [[1, 1, 1, 1]] 1) ∧
     lockOrdWOut.nextPieces =
       [new_piece [[1, 1], [1, 1]] 3, new_piece [[1, 1], [1, 1]] 4,
        new_piece [[1, 1], [1, 1]] 5] ++ [lockOrdWFresh] ∧
     lockOrdWOut.game_over =
       !(is_valid_position lockOrdWG1 (new_piece [[1, 1, 1, 1]] 1) 0 0
          (new_piece [[1, 1, 1, 1]] 1).shape) ∧
     lockOrdWOut.grid = (clear_lines lockOrdWG1).1) :=
  ⟨by decide, by decide,
   lock_spawns_before_clearing lockOrdWFresh lockOrdWStart lockOrdWPiece
     (new_piece [[1, 1, 1, 1]] 1) lockOrdWG1
     [new_piece [[1, 1], [1, 1]] 3, new_piece [[1, 1], [1, 1]] 4,
      new_piece [[1, 1], [1, 1]] 5] lockOrdWOut rfl rfl rfl (by decide)
     (by decide)⟩

def gameOverQueue : List Tetromino :=
  [new_piece [[1, 1], [1, 1]] 1, new_piece [[1, 1], [1, 1]] 2,
   new_piece [[1, 1], [1, 1]] 3, new_piece [[1, 1], [1, 1]] 4]

def gameOverMovable : GameState :=
  { grid := emptyGrid,
    current := some { shape := [[1, 1], [1, 1]], color := 2, x := 4, y := -2 },
    nextPieces := gameOverQueue, score := 0, lines := 0, blocks_placed := 0,
    game_over := true }

def gameOverBottom : GameState :=
  { gameOverMovable with
      current := some { shape := [[1, 1], [1, 1]], color := 2, x := 4, y := 18 } }

def gameOverFresh : Tetromino := new_piece [[1, 1, 1, 1]] 9

/-- C6: with the game-over flag set, `handle_keydown` still mutates the
game state, because only the restart key checks the flag: a left keydown
moves the current piece, and a down keydown on a floored piece locks it
into the grid and increments blocks-placed. -/
theorem gameover_keydown_still_mutates :
    gameOverMovable.game_over = true ∧
    handle_keydown Key.left 25 gameOverFresh gameOverFresh gameOverFresh
      gameOverFresh gameOverFresh gameOverFresh gameOverMovable =
      some { gameOverMovable with
               current := some { shape := [[1, 1], [1, 1]], color := 2,
                                 x := 3, y := -2 } } ∧
    (handle_keydown Key.down 25 gameOverFresh gameOverFresh gameOverFresh
      gameOverFresh gameOverFresh gameOverFresh gameOverBottom).map
      GameState.blocks_placed = some 1 := by
  decide

/-- C7: the generator `_new_piece` anchors every generated piece at the horizontal
center `GRID_WIDTH // 2 - 1` with `y` equal to minus the shape's height;
and `spawn_piece` installs the queue head as the current piece without
touching any grid cell, setting the game-over flag exactly when the
spawn-time collision check fails. -/
theorem spawn_centered_and_collision_gameover :
    (∀ (sh : List (List Nat)) (c : Nat),
        (new_piece sh c).x = (GRID_WIDTH : Int) / 2 - 1 ∧
        (new_piece sh c).y = -(sh.length : Int)) ∧
    (∀ (fresh q : Tetromino) (rest : List Tetromino) (s s1 : GameState),
        s.game_over = false → s.nextPieces = q :: rest →
        spawn_piece fresh s = some s1 →
        s1.grid = s.grid ∧ s1.current = some q ∧
        (is_valid_position s.grid q 0 0 q.shape = false →
          s1.game_over = true) ∧
        (is_valid_position s.grid q 0 0 q.shape = true →
          s1.game_over = false)) := by
  constructor
  · intro sh c
    exact ⟨rfl, rfl⟩
  · intro fresh q rest s s1 hgo hq hsp
    obtain ⟨g, cur, np, sc, ln, bp, go⟩ := s
    simp only at hgo hq ⊢
    subst hgo hq
    by_cases hv : is_valid_position g q 0 0 q.shape = true
    · simp only [spawn_piece, Bool.false_eq_true, if_false, hv, if_true,
        Option.some.injEq] at hsp
      subst hsp
      simp [hv]
    · rw [Bool.not_eq_true] at hv
      simp only [spawn_piece, Bool.false_eq_true, if_false, hv,
        Option.some.injEq] at hsp
      subst hsp
      simp [hv]

def spawnWitnessStart : GameState :=
  { grid := emptyGrid, current := none,
    nextPieces := [new_piece [[1, 1, 1, 1]] 1, new_piece [[1, 1], [1, 1]] 2,
                   new_piece [[1, 1], [1, 1]] 3, new_piece [[1, 1], [1, 1]] 4],
    score := 0, lines := 0, blocks_placed := 0, game_over := false }

def spawnWitnessFresh : Tetromino := new_piece [[0, 1, 1], [1, 1, 0]] 6

def spawnWitnessOut : GameState :=
  { spawnWitnessStart with
    current := some (new_piece [[1, 1, 1, 1]] 1),
    nextPieces := [new_piece [[1, 1], [1, 1]] 2, new_piece [[1, 1], [1, 1]] 3,
                   new_piece [[1, 1], [1, 1]] 4, spawnWitnessFresh] }

/-- Witness for C7 at a spawn of an I piece from a 4-piece queue. -/
theorem spawn_centered_and_collision_gameover_witness :
    spawn_piece spawnWitnessFresh spawnWitnessStart = some spawnWitnessOut ∧
    (spawnWitnessOut.grid = spawnWitnessStart.grid ∧
     spawnWitnessOut.current = some (new_piece [[1, 1, 1, 1]] 1) ∧
     (is_valid_position spawnWitnessStart.grid (new_piece [[1, 1, 1, 1]] 1) 0 0
        (new_piece [[1, 1, 1, 1]] 1).shape = false →
       spawnWitnessOut.game_over = true) ∧
     (is_valid_position spawnWitnessStart.grid (new_piece [[1, 1, 1, 1]] 1) 0 0
        (new_piece [[1, 1, 1, 1]] 1).shape = true →
       spawnWitnessOut.game_over = false)) :=
  ⟨by decide,
   spawn_centered_and_collision_gameover.2 spawnWitnessFresh
     (new_piece [[1, 1, 1, 1]] 1)
     [new_piece [[1, 1], [1, 1]] 2, new_piece [[1, 1], [1, 1]] 3,
      new_piece [[1, 1], [1, 1]] 4]
     spawnWitnessStart spawnWitnessOut rfl rfl (by decide)⟩

lemma spawn_queue_length (fresh : Tetromino) (s s1 : GameState)
    (h : spawn_piece fresh s = some s1) :
    s1.nextPieces.length = s.nextPieces.length := by
  obtain ⟨g, cur, np, sc, ln, bp, go⟩ := s
  cases go
  · cases np with
    | nil => simp [spawn_piece] at h
    | cons q rest =>
      by_cases hv : is_valid_position g q 0 0 q.shape = true
      · simp only [spawn_piece, Bool.false_eq_true, if_false, hv, if_true,
          Option.some.injEq] at h
        subst h
        simp
      · rw [Bool.not_eq_true] at hv
        simp only [spawn_piece, Bool.false_eq_true, if_false, hv,
          Option.some.injEq] at h
        subst h
        simp
  · simp only [spawn_piece, if_true, Option.some.injEq] at h
    subst h
    rfl

lemma lock_queue_length (fresh : Tetromino) (s s1 : GameState)
    (h : lock_piece fresh s = some s1) :
    s1.nextPieces.length = s.nextPieces.length := by
  obtain ⟨g, cur, np, sc, ln, bp, go⟩ := s
  cases cur with
  | none =>
    simp only [lock_piece, Option.some.injEq] at h
    subst h
    rfl
  | some p =>
    rcases hw : writeCells (occCells p.shape) g p with ⟨g1, b⟩
    cases b
    · simp only [lock_piece, hw, Option.map_eq_some'] at h
      obtain ⟨s2, hs2, hcl⟩ := h
      have hq2 := spawn_queue_length fresh _ s2 hs2
      subst hcl
      simpa [clear_lines_state_queue] using hq2
    · simp only [lock_piece, hw, Option.some.injEq] at h
      subst h
      rfl

lemma move_queue_length (fresh : Tetromino) (dx dy : Int) (s s1 : GameState)
    (h : move fresh dx dy s = some s1) :
    s1.nextPieces.length = s.nextPieces.length := by
  obtain ⟨g, cur, np, sc, ln, bp, go⟩ := s
  cases cur with
  | none =>
    simp only [move, Option.some.injEq] at h
    subst h
    rfl
  | some p =>
    simp only [move] at h
    by_cases hdy : dy = 0
    · simp only [hdy, ne_eq, not_true_eq_false, if_false, Option.some.injEq] at h
      subst h
      rfl
    · simp only [ne_eq, hdy, not_false_eq_true, if_true] at h
      split at h <;> split at h <;>
        first
          | (simp only [Option.some.injEq] at h
             subst h
             rfl)
          | (have h2 := lock_queue_length fresh _ s1 h
             exact h2)

lemma hard_drop_queue_length (fuel : Nat) (fresh : Tetromino) (s s1 : GameState)
    (h : hard_drop fuel fresh s = some s1) :
    s1.nextPieces.length = s.nextPieces.length := by
  obtain ⟨g, cur, np, sc, ln, bp, go⟩ := s
  cases cur with
  | none =>
    simp only [hard_drop, Option.some.injEq] at h
    subst h
    rfl
  | some p =>
    simp only [hard_drop] at h
    cases hd : descend fuel g p with
    | none => rw [hd] at h; simp at h
    | some p1 =>
      rw [hd] at h
      have h2 := lock_queue_length fresh ⟨g, some p1, np, sc, ln, bp, go⟩ s1 h
      exact h2

lemma rotate_current_queue (s : GameState) :
    (rotate_current s).nextPieces = s.nextPieces := by
  obtain ⟨g, cur, np, sc, ln, bp, go⟩ := s
  cases cur with
  | none => rfl
  | some p =>
    simp only [rotate_current]
    split <;> rfl

/-- C9: the preview queue keeps length `MAX_STAGE + 1`: `reset_game`
establishes it, and spawning, movement (including the lock it may
trigger), rotation, hard drops and locking all preserve the queue
length. -/
theorem preview_queue_length_invariant :
    (∀ (a b c d e : Tetromino) (s1 : GameState),
        reset_game a b c d e = some s1 →
        s1.nextPieces.length = MAX_STAGE + 1) ∧
    (∀ (fresh : Tetromino) (s s1 : GameState),
        spawn_piece fresh s = some s1 →
        s1.nextPieces.length = s.nextPieces.length) ∧
    (∀ (fresh : Tetromino) (dx dy : Int) (s s1 : GameState),
        move fresh dx dy s = some s1 →
        s1.nextPieces.length = s.nextPieces.length) ∧
    (∀ s : GameState,
        (rotate_current s).nextPieces.length = s.nextPieces.length) ∧
    (∀ (fuel : Nat) (fresh : Tetromino) (s s1 : GameState),
        hard_drop fuel fresh s = some s1 →
        s1.nextPieces.length = s.nextPieces.length) ∧
    (∀ (fresh : Tetromino) (s s1 : GameState),
        lock_piece fresh s = some s1 →
        s1.nextPieces.length = s.nextPieces.length) := by
  refine ⟨?_, spawn_queue_length, move_queue_length,
    fun s => by rw [rotate_current_queue], hard_drop_queue_length,
    lock_queue_length⟩
  intro a b c d e s1 h
  unfold reset_game at h
  have hlen := spawn_queue_length e _ s1 h
  simpa using hlen

def queueWitnessFresh : Tetromino := new_piece [[1, 1, 1, 1]] 8

def queueWitnessStart : GameState :=
  { grid := emptyGrid, current := none,
    nextPieces := [new_piece [[1, 1], [1, 1]] 1, new_piece [[1, 1], [1, 1]] 2,
                   new_piece [[1, 1], [1, 1]] 3, new_piece [[1, 1], [1, 1]] 4],
    score := 0, lines := 0, blocks_placed := 0, game_over := false }

def queueWitnessOut : GameState :=
  { queueWitnessStart with
    current := some (new_piece [[1, 1], [1, 1]] 1),
    nextPieces := [new_piece [[1, 1], [1, 1]] 2, new_piece [[1, 1], [1, 1]] 3,
                   new_piece [[1, 1], [1, 1]] 4, queueWitnessFresh] }

/-- Witness for C9 at a concrete spawn from a 4-piece queue. -/
theorem preview_queue_length_invariant_witness :
    spawn_piece queueWitnessFresh queueWitnessStart = some queueWitnessOut ∧
    queueWitnessOut.nextPieces.length = queueWitnessStart.nextPieces.length :=
  ⟨by decide,
   preview_queue_length_invariant.2.1 queueWitnessFresh queueWitnessStart
     queueWitnessOut (by decide)⟩

/-- Does the top row of a shape matrix contain an occupied cell? -/
def row0occ (shape : List (List Nat)) : Bool :=
  (shape.headD []).any (fun v => v != 0)

lemma row0occ_rotations :
    ∀ sh ∈ SHAPES, ∀ r < 4, row0occ (rotate_shape^[r] sh) = true := by
  decide

lemma iterate_rotate_four_mul (sh : List (List Nat)) (hsh : sh ∈ SHAPES) :
    ∀ q : Nat, rotate_shape^[4 * q] sh = sh := by
  intro q
  induction q with
  | zero => rfl
  | succ m ihm =>
    rw [Nat.mul_succ, Function.iterate_add_apply,
      rotate_shape_four_on_shapes sh hsh, ihm]

lemma iterate_rotate_mod (sh : List (List Nat)) (hsh : sh ∈ SHAPES) (k : Nat) :
    rotate_shape^[k] sh = rotate_shape^[k % 4] sh := by
  conv_lhs => rw [← Nat.mod_add_div k 4]
  rw [Function.iterate_add_apply, iterate_rotate_four_mul sh hsh]

lemma rowOccFrom_head_of_any (yo : Nat) :
    ∀ (r : List Nat) (xo : Nat), r.any (fun v => v != 0) = true →
      ∃ x0 t, rowOccFrom yo xo r = (yo, x0) :: t := by
  intro r
  induction r with
  | nil =>
    intro xo h
    simp at h
  | cons v vs ihv =>
    intro xo h
    by_cases hv : v ≠ 0
    · exact ⟨xo, rowOccFrom yo (xo + 1) vs, by simp [rowOccFrom, hv]⟩
    · rw [not_not] at hv
      subst hv
      have h2 : vs.any (fun v => v != 0) = true := by simpa using h
      obtain ⟨x0, t, ht⟩ := ihv (xo + 1) h2
      exact ⟨x0, t, by simp [rowOccFrom, ht]⟩

lemma occCells_head_of_row0occ (shape : List (List Nat))
    (h : row0occ shape = true) :
    ∃ x0 t, occCells shape = (0, x0) :: t := by
  cases shape with
  | nil => simp [row0occ] at h
  | cons r rest =>
    have h2 : r.any (fun v => v != 0) = true := by simpa [row0occ] using h
    obtain ⟨x0, t, ht⟩ := rowOccFrom_head_of_any 0 r 0 h2
    exact ⟨x0, t ++ occCellsFrom 1 rest, by simp [occCells, occCellsFrom, ht]⟩

/-- C10: locking a piece whose shape is a canonical tetromino (or any
rotation of one) while some occupied cell sits at `y < 0` only sets the
game-over flag: the `y < 0` check fires on the very first written cell
(every such shape has an occupied cell in its top row), so the grid
keeps every cell and blocks-placed is not incremented. -/
theorem lock_above_field_aborts_without_writing (fresh : Tetromino)
    (s : GameState) (p : Tetromino) (sh : List (List Nat)) (k : Nat)
    (hcur : s.current = some p)
    (hmem : sh ∈ SHAPES)
    (hshape : p.shape = rotate_shape^[k] sh)
    (hneg : ∃ c ∈ occCells p.shape, p.y + (c.1 : Int) < 0) :
    lock_piece fresh s = some { s with game_over := true } := by
  obtain ⟨c, hc, hcy⟩ := hneg
  have hy : p.y < 0 := by omega
  have hr0 : row0occ p.shape = true := by
    rw [hshape, iterate_rotate_mod sh hmem k]
    exact row0occ_rotations sh hmem (k % 4) (Nat.mod_lt _ (by norm_num))
  obtain ⟨x0, t, ht⟩ := occCells_head_of_row0occ p.shape hr0
  have hw : writeCells (occCells p.shape) s.grid p = (s.grid, true) := by
    rw [ht]
    unfold writeCells
    rw [if_pos (by simpa using hy)]
  simp only [lock_piece, hcur, hw]

def aboveFieldLockState : GameState :=
  { grid := emptyGrid,
    current := some { shape := [[1, 1, 1, 1]], color := 3, x := 4, y := -1 },
    nextPieces := gameOverQueue, score := 0, lines := 0, blocks_placed := 0,
    game_over := false }

def aboveFieldFresh : Tetromino := new_piece [[1, 1], [1, 1]] 7

/-- Witness for C10 at an I piece resting entirely above the field. -/
theorem lock_above_field_aborts_witness :
    (∃ c ∈ occCells [[1, 1, 1, 1]], (-1 : Int) + (c.1 : Int) < 0) ∧
    lock_piece aboveFieldFresh aboveFieldLockState =
      some { aboveFieldLockState with game_over := true } :=
  ⟨by decide,
   lock_above_field_aborts_without_writing aboveFieldFresh aboveFieldLockState
     { shape := [[1, 1, 1, 1]], color := 3, x := 4, y := -1 } [[1, 1, 1, 1]] 0
     rfl (by decide) rfl (by decide)⟩
